import Mathlib

/-!
Shallow embedding of the core logic of the `window-to-the-world-app`
weather-visualization widget, together with proofs of its stated
properties.  The definitions mirror `src/services/weatherService.ts`,
`src/App` (the main component holding `loadScene`, `handleAddCity`) and
`src/types.ts`; JavaScript 32-bit integer coercion, string falsiness and
regex matching are modelled explicitly where the source relies on them.
-/

namespace WTW

/-- `City` record from `src/types.ts`.  Coordinates are modelled as
integers; only `id`, `name`, `country` and `timezone` matter to the
verified claims. -/
structure City where
  id : String
  name : String
  country : String
  lat : Int
  lng : Int
  timezone : String
deriving DecidableEq, Repr

/-- `WeatherData` record from `src/types.ts`. -/
structure WeatherData where
  temperature : Int
  conditionCode : Nat
  conditionText : String
  isDay : Bool
  localTime : String
deriving DecidableEq, Repr

/-- `ViewStatus` union from `src/types.ts`. -/
inductive ViewStatus where
  | idle
  | loading_weather
  | complete
  | error
deriving DecidableEq, Repr

/-- `ViewState` record from `src/types.ts`. -/
structure ViewState where
  status : ViewStatus
  description : Option String
deriving DecidableEq, Repr

/-! ## Weather category classification (`getWeatherCategory`) -/

/-- Embedding of `getWeatherCategory` from `src/services/weatherService.ts`:
classifies the condition code into `snow`/`rain`/`clear` and appends
`-day`/`-night`. -/
def getWeatherCategory (weather : Option WeatherData) : Option String :=
  match weather with
  | none => none
  | some w =>
    let code := w.conditionCode
    let condition :=
      if [71, 73, 75, 77, 85, 86].contains code then "snow"
      else if [51, 53, 55, 56, 57, 61, 63, 65, 66, 67, 80, 81, 82, 95, 96, 99].contains code then "rain"
      else "clear"
    some (condition ++ "-" ++ (if w.isDay then "day" else "night"))

/-- Coarse condition class exactly as the specification lists it:
codes 71,73,75,77,85,86 are snow; the listed drizzle/rain/shower/storm
codes are rain; everything else is clear. -/
def specConditionClass (code : Nat) : String :=
  if code ∈ ([71, 73, 75, 77, 85, 86] : List Nat) then "snow"
  else if code ∈ ([51, 53, 55, 56, 57, 61, 63, 65, 66, 67, 80, 81, 82, 95, 96, 99] : List Nat) then "rain"
  else "clear"

/-! ## Image selection (`selectImageFromManifest`) -/

/-- Base URL constant from `src/services/weatherService.ts`. -/
def RAW_GITHUB_BASE : String :=
  "https://raw.githubusercontent.com/Shellwecode/weather-illustrations/main"

/-- JavaScript `ToInt32`: wrap an integer into the signed 32-bit range,
as performed by `x |= 0` and by the shift operator. -/
def toInt32 (n : Int) : Int := (n + 2 ^ 31) % 2 ^ 32 - 2 ^ 31

/-- One step of the hash loop in `selectImageFromManifest`:
`hash = ((hash << 5) - hash) + seed.charCodeAt(i); hash |= 0;`.
`hash << 5` coerces to 32 bits (the shift of an int32 wraps), the
subtraction and addition are exact, and `|= 0` wraps the result. -/
def hashStep (h : Int) (c : Nat) : Int :=
  toInt32 (toInt32 (h * 32) - h + c)

/-- The full hash of a seed, folded over its UTF-16 code units. -/
def jsHash (seed : List Nat) : Int := seed.foldl hashStep 0

/-- The hash step exactly as the specification words it:
`hash = hash*31 + charCode`, wrapped to the signed 32-bit range. -/
def specHashStep (h : Int) (c : Nat) : Int := toInt32 (h * 31 + c)

/-- The specification's rolling hash folded over the seed. -/
def specHash (seed : List Nat) : Int := seed.foldl specHashStep 0

/-- Embedding of `selectImageFromManifest` from
`src/services/weatherService.ts`.  The seed string is given by its list
of UTF-16 code units (what `charCodeAt` iterates over). -/
def selectImageFromManifest (category : String) (manifest : List String)
    (seed : List Nat) : Option String :=
  if manifest.length = 0 then none
  else
    let hash := jsHash seed
    let index := hash.natAbs % manifest.length
    let filename := manifest.getD index ""
    some (RAW_GITHUB_BASE ++ "/" ++ category ++ "/" ++ filename)

theorem toInt32_congr {a b : Int} (h : a % 2 ^ 32 = b % 2 ^ 32) :
    toInt32 a = toInt32 b := by
  unfold toInt32
  omega

theorem toInt32_emod (a : Int) : toInt32 a % 2 ^ 32 = a % 2 ^ 32 := by
  unfold toInt32
  omega

theorem hashStep_eq_specHashStep (h : Int) (c : Nat) :
    hashStep h c = specHashStep h c := by
  unfold hashStep specHashStep
  apply toInt32_congr
  have h32 := toInt32_emod (h * 32)
  omega

theorem foldl_hashStep_eq (seed : List Nat) :
    ∀ h : Int, seed.foldl hashStep h = seed.foldl specHashStep h := by
  induction seed with
  | nil => intro h; rfl
  | cons c cs ih =>
    intro h
    simp only [List.foldl_cons, hashStep_eq_specHashStep]
    exact ih (specHashStep h c)

theorem jsHash_eq_specHash (seed : List Nat) : jsHash seed = specHash seed :=
  foldl_hashStep_eq seed 0

/-- C7: for every non-null `WeatherData`, `getWeatherCategory` returns the
coarse condition class given by the specification's code sets, joined by a
hyphen with `day`/`night` according to `isDay`; in particular condition
code 71 with `isDay = false` yields `"snow-night"`. -/
theorem getWeatherCategory_classifies (w : WeatherData) :
    getWeatherCategory (some w) =
      some (specConditionClass w.conditionCode ++ "-" ++
        (if w.isDay then "day" else "night"))
  ∧ getWeatherCategory (some ⟨0, 71, "Slight snow fall", false, ""⟩) =
      some "snow-night" := by
  constructor
  · simp only [getWeatherCategory, specConditionClass, List.contains,
      List.elem_eq_mem, decide_eq_true_eq]
  · rfl

/-- C2: for every category, non-empty manifest and seed,
`selectImageFromManifest` returns the URL of the filename indexed by the
absolute value, modulo the manifest length, of the specification's rolling
hash (`hash = hash*31 + charCode`, wrapped to signed 32 bits), under the
category's remote folder; and the selection is deterministic in the seed. -/
theorem selectImageFromManifest_spec (category : String)
    (manifest : List String) (seed : List Nat) (hne : manifest ≠ []) :
    selectImageFromManifest category manifest seed =
      some (RAW_GITHUB_BASE ++ "/" ++ category ++ "/" ++
        manifest.getD ((specHash seed).natAbs % manifest.length) "")
  ∧ (∀ seed2 : List Nat, seed2 = seed →
      selectImageFromManifest category manifest seed2 =
        selectImageFromManifest category manifest seed) := by
  constructor
  · unfold selectImageFromManifest
    rw [if_neg (by simpa [List.length_eq_zero] using hne)]
    rw [jsHash_eq_specHash]
  · intro seed2 h2
    rw [h2]

/-- Witness for C2 at a concrete input: category `clear-day`, a
three-element manifest and the code units of the seed `kyoto`. -/
theorem selectImageFromManifest_spec_witness :
    (["a.png", "b.png", "c.png"] : List String) ≠ [] ∧
    selectImageFromManifest "clear-day" ["a.png", "b.png", "c.png"]
        [107, 121, 111, 116, 111] =
      some (RAW_GITHUB_BASE ++ "/" ++ "clear-day" ++ "/" ++
        (["a.png", "b.png", "c.png"] : List String).getD
          ((specHash [107, 121, 111, 116, 111]).natAbs %
            (["a.png", "b.png", "c.png"] : List String).length) "") :=
  ⟨by decide, (selectImageFromManifest_spec "clear-day"
    ["a.png", "b.png", "c.png"] [107, 121, 111, 116, 111] (by decide)).1⟩

/-! ## Time parsing and time-of-day resolvers

Both `getTimeOfDayBg` and `getTextContrastClass` run the regular
expression `(\d+):(\d+)\s*(AM|PM)` (case-insensitive) over the time
string and fall back to hour 12 when it does not match.  The pattern
needs no backtracking (a maximal digit run can never be shortened into a
match, nor can the maximal whitespace run), so a leftmost maximal-munch
scanner is an exact model of `String.prototype.match`. -/

/-- Decimal value of a digit run, as `parseInt(s, 10)` computes it. -/
def digitsToNat (ds : List Char) : Nat :=
  ds.foldl (fun n c => n * 10 + (c.toNat - 48)) 0

/-- JavaScript `\s` restricted to the whitespace characters that occur in
formatted time strings (space, tab, CR, LF, NBSP, narrow no-break space). -/
def jsWhitespace (c : Char) : Bool :=
  c = ' ' || c = '\t' || c = '\n' || c = '\r' || c.toNat = 160 || c.toNat = 8239

/-- Case-insensitive match of the alternation `AM|PM` at the head of the
input; `some true` means PM. -/
def matchMeridiem : List Char → Option Bool
  | c1 :: c2 :: _ =>
    if (c1 = 'A' || c1 = 'a') && (c2 = 'M' || c2 = 'm') then some false
    else if (c1 = 'P' || c1 = 'p') && (c2 = 'M' || c2 = 'm') then some true
    else none
  | _ => none

/-- Try to match `(\d+):(\d+)\s*(AM|PM)` anchored at the head of the
input, returning the parsed hour group, minute group and meridiem. -/
def matchTimeAt (cs : List Char) : Option (Nat × Nat × Bool) :=
  let d1 := cs.takeWhile Char.isDigit
  if d1.isEmpty then none
  else
    match cs.dropWhile Char.isDigit with
    | ':' :: rest2 =>
      let d2 := rest2.takeWhile Char.isDigit
      if d2.isEmpty then none
      else
        let rest3 := rest2.dropWhile Char.isDigit
        let rest4 := rest3.dropWhile jsWhitespace
        match matchMeridiem rest4 with
        | some pm => some (digitsToNat d1, digitsToNat d2, pm)
        | none => none
    | _ => none

/-- Leftmost regex search: try each start position from the left. -/
def jsTimeMatchList : List Char → Option (Nat × Nat × Bool)
  | [] => none
  | c :: rest =>
    match matchTimeAt (c :: rest) with
    | some r => some r
    | none => jsTimeMatchList rest

/-- First match of `(\d+):(\d+)\s*(AM|PM)/i` in a string, with the
numeric groups already run through `parseInt`. -/
def jsTimeMatch (s : String) : Option (Nat × Nat × Bool) :=
  jsTimeMatchList s.data

/-- The 12-hour to 24-hour conversion both resolvers perform:
`if (ampm === 'PM' && hour < 12) hour += 12; if (ampm === 'AM' && hour === 12) hour = 0;`. -/
def jsTo24 (h : Nat) (pm : Bool) : Nat :=
  let h1 := if pm && h < 12 then h + 12 else h
  if !pm && h1 = 12 then 0 else h1

/-- The hour value both resolvers derive from a time string: the parsed,
converted hour, or the default 12 when the regex does not match. -/
def parsedHour (s : String) : Nat :=
  match jsTimeMatch s with
  | none => 12
  | some (h, _, pm) => jsTo24 h pm

/-- The bucket/colour ladder inside `getTimeOfDayBg`, verbatim from
`src/services/weatherService.ts`. -/
def timeBucketColor (hour : Nat) : String × String :=
  if 23 ≤ hour ∨ hour < 3 then ("Deep Night", "#273657")
  else if 3 ≤ hour ∧ hour < 6 then ("Late Night", "#4E72A0")
  else if 6 ≤ hour ∧ hour < 12 then ("Morning", "#F7F9FF")
  else if 12 ≤ hour ∧ hour < 18 then ("Afternoon", "#F2F4FF")
  else ("Evening", "#96A8C2")

/-- Embedding of `getTimeOfDayBg`.  The guard `if (!timeStr)` is true for
both `null` and the empty string (JavaScript falsiness). -/
def getTimeOfDayBg (timeStr : Option String) : String :=
  match timeStr with
  | none => "#F7F9FF"
  | some s =>
    if s = "" then "#F7F9FF"
    else (timeBucketColor (parsedHour s)).2

/-- Pair of text classes returned by `getTextContrastClass`. -/
structure ContrastClass where
  main : String
  sub : String
deriving DecidableEq, Repr

/-- Embedding of `getTextContrastClass`: dark text for hours in `[6,18)`,
light text otherwise, with a dark default for falsy input. -/
def getTextContrastClass (timeStr : Option String) : ContrastClass :=
  match timeStr with
  | none => ⟨"text-zinc-950", "text-zinc-500"⟩
  | some s =>
    if s = "" then ⟨"text-zinc-950", "text-zinc-500"⟩
    else if 6 ≤ parsedHour s ∧ parsedHour s < 18 then
      ⟨"text-zinc-900", "text-zinc-500"⟩
    else ⟨"text-white", "text-white/70"⟩

theorem jsTimeMatch_ne_empty {s : String} {r : Nat × Nat × Bool}
    (hm : jsTimeMatch s = some r) : s ≠ "" := by
  intro he
  subst he
  simp [jsTimeMatch, jsTimeMatchList] at hm

theorem getTimeOfDayBg_of_match {s : String} {h m : Nat} {pm : Bool}
    (hmatch : jsTimeMatch s = some (h, m, pm)) :
    getTimeOfDayBg (some s) = (timeBucketColor (jsTo24 h pm)).2 := by
  have hne : s ≠ "" := jsTimeMatch_ne_empty hmatch
  simp only [getTimeOfDayBg, if_neg hne, parsedHour, hmatch]

/-- C6: whenever the time string matches the 12-hour pattern, the derived
24-hour hour (12 AM mapping to 0, 12 PM staying 12, other PM hours gaining
12) selects the bucket and its fixed tint by the half-open intervals
`[23,24) ∪ [0,3)` Deep Night, `[3,6)` Late Night, `[6,12)` Morning,
`[12,18)` Afternoon, `[18,23)` Evening; in particular hours 23 and 2 give
Deep Night, 5 Late Night, 11 Morning, 17 Afternoon and 22 Evening. -/
theorem getTimeOfDayBg_buckets (s : String) (h m : Nat) (pm : Bool)
    (hmatch : jsTimeMatch s = some (h, m, pm)) :
    (jsTo24 12 false = 0 ∧ jsTo24 12 true = 12 ∧
      ∀ hh, hh < 12 → jsTo24 hh true = hh + 12)
  ∧ (jsTo24 h pm = 23 ∨ jsTo24 h pm < 3 →
      timeBucketColor (jsTo24 h pm) = ("Deep Night", "#273657") ∧
      getTimeOfDayBg (some s) = "#273657")
  ∧ (3 ≤ jsTo24 h pm ∧ jsTo24 h pm < 6 →
      timeBucketColor (jsTo24 h pm) = ("Late Night", "#4E72A0") ∧
      getTimeOfDayBg (some s) = "#4E72A0")
  ∧ (6 ≤ jsTo24 h pm ∧ jsTo24 h pm < 12 →
      timeBucketColor (jsTo24 h pm) = ("Morning", "#F7F9FF") ∧
      getTimeOfDayBg (some s) = "#F7F9FF")
  ∧ (12 ≤ jsTo24 h pm ∧ jsTo24 h pm < 18 →
      timeBucketColor (jsTo24 h pm) = ("Afternoon", "#F2F4FF") ∧
      getTimeOfDayBg (some s) = "#F2F4FF")
  ∧ (18 ≤ jsTo24 h pm ∧ jsTo24 h pm < 23 →
      timeBucketColor (jsTo24 h pm) = ("Evening", "#96A8C2") ∧
      getTimeOfDayBg (some s) = "#96A8C2")
  ∧ (timeBucketColor 23).1 = "Deep Night" ∧ (timeBucketColor 2).1 = "Deep Night"
  ∧ (timeBucketColor 5).1 = "Late Night" ∧ (timeBucketColor 11).1 = "Morning"
  ∧ (timeBucketColor 17).1 = "Afternoon" ∧ (timeBucketColor 22).1 = "Evening" := by
  have hbg := getTimeOfDayBg_of_match hmatch
  refine ⟨⟨rfl, rfl, fun hh hlt => ?_⟩, ?_, ?_, ?_, ?_, ?_, ?_⟩
  · simp [jsTo24, hlt]
  · intro hr
    have hb : timeBucketColor (jsTo24 h pm) = ("Deep Night", "#273657") := by
      simp only [timeBucketColor]
      rw [if_pos (by omega)]
    exact ⟨hb, by rw [hbg, hb]⟩
  · intro hr
    have hb : timeBucketColor (jsTo24 h pm) = ("Late Night", "#4E72A0") := by
      simp only [timeBucketColor]
      rw [if_neg (by omega), if_pos (by omega)]
    exact ⟨hb, by rw [hbg, hb]⟩
  · intro hr
    have hb : timeBucketColor (jsTo24 h pm) = ("Morning", "#F7F9FF") := by
      simp only [timeBucketColor]
      rw [if_neg (by omega), if_neg (by omega), if_pos (by omega)]
    exact ⟨hb, by rw [hbg, hb]⟩
  · intro hr
    have hb : timeBucketColor (jsTo24 h pm) = ("Afternoon", "#F2F4FF") := by
      simp only [timeBucketColor]
      rw [if_neg (by omega), if_neg (by omega), if_neg (by omega),
        if_pos (by omega)]
    exact ⟨hb, by rw [hbg, hb]⟩
  · intro hr
    have hb : timeBucketColor (jsTo24 h pm) = ("Evening", "#96A8C2") := by
      simp only [timeBucketColor]
      rw [if_neg (by omega), if_neg (by omega), if_neg (by omega),
        if_neg (by omega)]
    exact ⟨hb, by rw [hbg, hb]⟩
  · exact ⟨by decide, by decide, by decide, by decide, by decide, by decide⟩

/-- Witness for C6 at the concrete time string `11:30 PM` (hour 23). -/
theorem getTimeOfDayBg_buckets_witness :
    timeBucketColor (jsTo24 11 true) = ("Deep Night", "#273657") ∧
    getTimeOfDayBg (some "11:30 PM") = "#273657" :=
  (getTimeOfDayBg_buckets "11:30 PM" 11 30 true (by decide)).2.1
    (Or.inl (by decide))

/-- C8 counterexample: the string `--:--` (the app's own placeholder time)
does not parse, yet the two resolvers return different values for it than
for an absent time string, so absent and non-parsing inputs do NOT share
one default: `getTimeOfDayBg` gives `#F2F4FF` versus `#F7F9FF`, and
`getTextContrastClass` gives `text-zinc-900` versus `text-zinc-950`. -/
theorem timeFallback_not_same_default :
    jsTimeMatch "--:--" = none
  ∧ getTimeOfDayBg (some "--:--") ≠ getTimeOfDayBg none
  ∧ getTextContrastClass (some "--:--") ≠ getTextContrastClass none := by
  refine ⟨by decide, by decide, by decide⟩

/-- C8 (amended): an absent or empty time string yields the neutral colour
`#F7F9FF` and the dark pair `text-zinc-950`/`text-zinc-500`; a non-empty
string with no parseable 12-hour time falls back to hour 12, yielding the
Afternoon colour `#F2F4FF` and the dark pair `text-zinc-900`/
`text-zinc-500`.  All of these are dark-text, neutral defaults, and both
functions are total, so neither throws. -/
theorem timeFallback_defaults (s : String) (hne : s ≠ "")
    (hmatch : jsTimeMatch s = none) :
    getTimeOfDayBg (some s) = "#F2F4FF"
  ∧ getTextContrastClass (some s) = ⟨"text-zinc-900", "text-zinc-500"⟩
  ∧ getTimeOfDayBg none = "#F7F9FF"
  ∧ getTextContrastClass none = ⟨"text-zinc-950", "text-zinc-500"⟩
  ∧ getTimeOfDayBg (some "") = "#F7F9FF"
  ∧ getTextContrastClass (some "") = ⟨"text-zinc-950", "text-zinc-500"⟩ := by
  refine ⟨?_, ?_, rfl, rfl, rfl, rfl⟩
  · simp only [getTimeOfDayBg, if_neg hne, parsedHour, hmatch]
    rfl
  · simp only [getTextContrastClass, if_neg hne, parsedHour, hmatch]
    rw [if_pos (by omega)]

/-- Witness for C8 (amended) at the concrete input `--:--`. -/
theorem timeFallback_defaults_witness :
    getTimeOfDayBg (some "--:--") = "#F2F4FF"
  ∧ getTextContrastClass (some "--:--") = ⟨"text-zinc-900", "text-zinc-500"⟩ := by
  have h := timeFallback_defaults "--:--" (by decide) (by decide)
  exact ⟨h.1, h.2.1⟩

/-! ## Weather fetch retry policy (`fetchWeather`)

The retry loop of `fetchWeather` is embedded over an abstract environment
`env : Nat → FetchOutcome` giving the outcome of the i-th network attempt.
The model returns the final result, the list of backoff waits (in ms) in
the order they are performed, and the number of attempts consumed. -/

/-- Outcome of one attempt inside the `fetchWeather` loop: a successful,
well-formed response; an HTTP 429 response; or any other non-success
response, network error or malformed body (everything the `catch` sees). -/
inductive FetchOutcome where
  | success (w : WeatherData)
  | rateLimited
  | failure
deriving DecidableEq, Repr

/-- Whether an attempt outcome is a success. -/
def isSuccess : FetchOutcome → Bool
  | .success _ => true
  | _ => false

/-- The `for (let i = 0; i < retries; i++)` loop of `fetchWeather`,
with `fuel = retries - i` making the recursion structural.  On 429 it
waits `1500 * (i + 1)` and continues; on any other failure it rethrows on
the last attempt and otherwise waits `500 * 2 ^ i`; after the loop the
function throws (modelled as `Except.error ()`). -/
def fetchWeatherLoop (env : Nat → FetchOutcome) (retries : Nat) :
    Nat → Nat → Except Unit WeatherData × List Nat × Nat
  | 0, i => (Except.error (), [], i)
  | fuel + 1, i =>
    match env i with
    | .success w => (Except.ok w, [], i + 1)
    | .rateLimited =>
      let r := fetchWeatherLoop env retries fuel (i + 1)
      (r.1, 1500 * (i + 1) :: r.2.1, r.2.2)
    | .failure =>
      if i = retries - 1 then (Except.error (), [], i + 1)
      else
        let r := fetchWeatherLoop env retries fuel (i + 1)
        (r.1, 500 * 2 ^ i :: r.2.1, r.2.2)

/-- `fetchWeather` with its default budget of 3 attempts. -/
def fetchWeather (env : Nat → FetchOutcome) :
    Except Unit WeatherData × List Nat × Nat :=
  fetchWeatherLoop env 3 3 0

theorem fetchWeatherLoop_eq3 (env : Nat → FetchOutcome) (i : Nat) :
    fetchWeatherLoop env 3 3 i =
      match env i with
      | .success w => (Except.ok w, [], i + 1)
      | .rateLimited =>
        ((fetchWeatherLoop env 3 2 (i + 1)).1,
          1500 * (i + 1) :: (fetchWeatherLoop env 3 2 (i + 1)).2.1,
          (fetchWeatherLoop env 3 2 (i + 1)).2.2)
      | .failure =>
        if i = 2 then (Except.error (), [], i + 1)
        else ((fetchWeatherLoop env 3 2 (i + 1)).1,
          500 * 2 ^ i :: (fetchWeatherLoop env 3 2 (i + 1)).2.1,
          (fetchWeatherLoop env 3 2 (i + 1)).2.2) := rfl

theorem fetchWeatherLoop_eq2 (env : Nat → FetchOutcome) (i : Nat) :
    fetchWeatherLoop env 3 2 i =
      match env i with
      | .success w => (Except.ok w, [], i + 1)
      | .rateLimited =>
        ((fetchWeatherLoop env 3 1 (i + 1)).1,
          1500 * (i + 1) :: (fetchWeatherLoop env 3 1 (i + 1)).2.1,
          (fetchWeatherLoop env 3 1 (i + 1)).2.2)
      | .failure =>
        if i = 2 then (Except.error (), [], i + 1)
        else ((fetchWeatherLoop env 3 1 (i + 1)).1,
          500 * 2 ^ i :: (fetchWeatherLoop env 3 1 (i + 1)).2.1,
          (fetchWeatherLoop env 3 1 (i + 1)).2.2) := rfl

theorem fetchWeatherLoop_eq1 (env : Nat → FetchOutcome) (i : Nat) :
    fetchWeatherLoop env 3 1 i =
      match env i with
      | .success w => (Except.ok w, [], i + 1)
      | .rateLimited =>
        ((fetchWeatherLoop env 3 0 (i + 1)).1,
          1500 * (i + 1) :: (fetchWeatherLoop env 3 0 (i + 1)).2.1,
          (fetchWeatherLoop env 3 0 (i + 1)).2.2)
      | .failure =>
        if i = 2 then (Except.error (), [], i + 1)
        else ((fetchWeatherLoop env 3 0 (i + 1)).1,
          500 * 2 ^ i :: (fetchWeatherLoop env 3 0 (i + 1)).2.1,
          (fetchWeatherLoop env 3 0 (i + 1)).2.2) := rfl

theorem fetchWeatherLoop_eq0 (env : Nat → FetchOutcome) (i : Nat) :
    fetchWeatherLoop env 3 0 i = (Except.error (), [], i) := rfl

theorem forall_lt_zero {P : Nat → Prop} : (∀ i, i < 0 → P i) ↔ True := by
  simp

theorem forall_lt_one {P : Nat → Prop} : (∀ i, i < 1 → P i) ↔ P 0 := by
  constructor
  · intro hp; exact hp 0 (by omega)
  · intro hp i hi
    have : i = 0 := by omega
    rwa [this]

theorem forall_lt_two {P : Nat → Prop} : (∀ i, i < 2 → P i) ↔ P 0 ∧ P 1 := by
  constructor
  · intro hp; exact ⟨hp 0 (by omega), hp 1 (by omega)⟩
  · rintro ⟨p0, p1⟩ i hi
    rcases (by omega : i = 0 ∨ i = 1) with h | h <;> rwa [h]

theorem forall_lt_three {P : Nat → Prop} : (∀ i, i < 3 → P i) ↔ P 0 ∧ P 1 ∧ P 2 := by
  constructor
  · intro hp; exact ⟨hp 0 (by omega), hp 1 (by omega), hp 2 (by omega)⟩
  · rintro ⟨p0, p1, p2⟩ i hi
    rcases (by omega : i = 0 ∨ i = 1 ∨ i = 2) with h | h | h <;> rwa [h]

theorem range_three : List.range 3 = [0, 1, 2] := rfl

theorem range_two : List.range 2 = [0, 1] := rfl

theorem range_one : List.range 1 = [0] := rfl

/-- C3: `fetchWeather` makes at most 3 attempts; its waits are exactly one
entry per consumed non-final attempt outcome — `1500 * (i + 1)` ms for a
429 at attempt `i` (including a 429 on the last attempt) and `500 * 2 ^ i`
ms for any other failure at a non-final attempt `i`; it fails (with the
`WeatherUnavailable` error, modelled as `Except.error`) exactly when none
of the first 3 attempts succeeds, and it returns a value only from the
first successful attempt. -/
theorem fetchWeather_retry_policy (env : Nat → FetchOutcome) :
    (fetchWeather env).2.2 ≤ 3
  ∧ (fetchWeather env).2.1 =
      (List.range (fetchWeather env).2.2).filterMap (fun i =>
        match env i with
        | .success _ => none
        | .rateLimited => some (1500 * (i + 1))
        | .failure => if i + 1 < 3 then some (500 * 2 ^ i) else none)
  ∧ ((fetchWeather env).1 = Except.error () ↔
      ∀ i, i < 3 → isSuccess (env i) = false)
  ∧ (∀ w, (fetchWeather env).1 = Except.ok w →
      env ((fetchWeather env).2.2 - 1) = FetchOutcome.success w ∧
      ∀ j, j < (fetchWeather env).2.2 - 1 → isSuccess (env j) = false) := by
  cases h0 : env 0 <;> cases h1 : env 1 <;> cases h2 : env 2 <;>
    simp_all [fetchWeather, fetchWeatherLoop_eq3, fetchWeatherLoop_eq2,
      fetchWeatherLoop_eq1, fetchWeatherLoop_eq0, isSuccess,
      forall_lt_zero, forall_lt_one, forall_lt_two, forall_lt_three,
      range_three, range_two, range_one]

/-- Witness for C3 on the all-rate-limited environment: the fetch fails
after the 3-attempt budget, having waited the linear 429 delays. -/
theorem fetchWeather_retry_policy_witness :
    (fetchWeather (fun _ => FetchOutcome.rateLimited)).1 = Except.error ()
  ∧ (fetchWeather (fun _ => FetchOutcome.rateLimited)).2.1 = [1500, 3000, 4500] := by
  have h := fetchWeather_retry_policy (fun _ => FetchOutcome.rateLimited)
  refine ⟨(h.2.2.1).mpr (fun i hi => rfl), ?_⟩
  rw [h.2.1]
  rfl

/-! ## City search (`searchCities`) -/

/-- One raw entry of the geocoding endpoint's `results` array. -/
structure GeoResult where
  id : Nat
  name : String
  country : String
  latitude : Int
  longitude : Int
  timezone : Option String
deriving DecidableEq, Repr

/-- What the `try` block of `searchCities` observes: a network or JSON
error, a non-success response, a JSON body without a `results` field, or
a `results` array. -/
inductive SearchResponse where
  | netError
  | httpError
  | noResults
  | results (rs : List GeoResult)
deriving DecidableEq, Repr

/-- Normalization of one raw result into the `City` shape, as the `map`
inside `searchCities` performs it (`String(result.id)`,
`result.timezone || 'UTC'`; an empty timezone string is falsy too). -/
def normalizeResult (r : GeoResult) : City :=
  { id := toString r.id
    name := r.name
    country := r.country
    lat := r.latitude
    lng := r.longitude
    timezone :=
      match r.timezone with
      | none => "UTC"
      | some t => if t = "" then "UTC" else t }

/-- Embedding of `searchCities`: the returned city list paired with
whether a network request was issued.  The guard
`if (!query || query.length < 2) return []` fires before any fetch. -/
def searchCities (query : String) (resp : SearchResponse) :
    List City × Bool :=
  if query = "" ∨ query.length < 2 then ([], false)
  else
    match resp with
    | .netError => ([], true)
    | .httpError => ([], true)
    | .noResults => ([], true)
    | .results rs => (rs.map normalizeResult, true)

/-- C9: `searchCities` never throws (it is a total function in the model);
a query of fewer than 2 characters yields the empty sequence without a
network call; a long-enough query issues the call and yields the empty
sequence on network error, non-success response or missing `results`, and
otherwise each candidate normalized into the `City` shape, a missing (or
empty, hence falsy) timezone defaulting to the `UTC` sentinel; in
particular query `P` does not reach the network while query `Pa` does. -/
theorem searchCities_contract (query : String) (resp : SearchResponse) :
    (query.length < 2 → searchCities query resp = ([], false))
  ∧ (2 ≤ query.length →
      (searchCities query resp).2 = true
      ∧ (resp = SearchResponse.netError ∨ resp = SearchResponse.httpError ∨
          resp = SearchResponse.noResults → (searchCities query resp).1 = [])
      ∧ ∀ rs, resp = SearchResponse.results rs →
          (searchCities query resp).1 = rs.map normalizeResult)
  ∧ (∀ r : GeoResult, r.timezone = none → (normalizeResult r).timezone = "UTC")
  ∧ (searchCities "P" resp).2 = false
  ∧ (searchCities "Pa" resp).2 = true := by
  have hq : query = "" → query.length < 2 := by
    intro h; rw [h]; decide
  refine ⟨?_, ?_, ?_, ?_, ?_⟩
  · intro hlt
    simp only [searchCities, if_pos (Or.inr hlt)]
  · intro hge
    have hcond : ¬(query = "" ∨ query.length < 2) := by
      rintro (he | hlt)
      · exact absurd (hq he) (by omega)
      · omega
    refine ⟨?_, ?_, ?_⟩
    · cases resp <;> simp [searchCities, hcond]
    · rintro (h | h | h) <;> rw [h] <;> simp [searchCities, hcond]
    · intro rs h
      rw [h]
      simp [searchCities, hcond]
  · intro r hr
    simp [normalizeResult, hr]
  · cases resp <;> simp only [searchCities] <;> rw [if_pos (by decide)]
  · cases resp <;> simp only [searchCities] <;> rw [if_neg (by decide)]

/-- Witness for C9 at a concrete short query, long query and result. -/
theorem searchCities_contract_witness :
    searchCities "P" SearchResponse.netError = ([], false)
  ∧ (searchCities "Pa" SearchResponse.netError).2 = true := by
  have h := searchCities_contract "P" SearchResponse.netError
  have h2 := searchCities_contract "Pa" SearchResponse.netError
  exact ⟨h.1 (by decide), h2.2.2.2.2⟩

/-! ## Add-city uniqueness (`handleAddCity`) -/

/-- The duplicate test inside `handleAddCity`:
`c.id === newCity.id || (c.name === newCity.name && c.country === newCity.country)`. -/
def cityDup (c newCity : City) : Bool :=
  c.id = newCity.id || (c.name = newCity.name && c.country = newCity.country)

/-- Embedding of `handleAddCity` from the main component: returns the
updated city list and the city handed to `handleCityChange` (the found
existing entry, or the newly appended city). -/
def handleAddCity (cities : List City) (newCity : City) :
    List City × City :=
  match cities.find? (fun c => cityDup c newCity) with
  | some found => (cities, found)
  | none => (cities ++ [newCity], newCity)

/-- Duplicate relation as a proposition, for invariant statements. -/
def CityDupRel (a b : City) : Prop :=
  a.id = b.id ∨ (a.name = b.name ∧ a.country = b.country)

theorem cityDup_iff (a b : City) : cityDup a b = true ↔ CityDupRel a b := by
  simp [cityDup, CityDupRel]

instance (a b : City) : Decidable (CityDupRel a b) :=
  decidable_of_iff _ (cityDup_iff a b)

/-- C10: if the list already contains a city with the same id, or with the
same name and country, `handleAddCity` leaves the list unchanged and
selects the first such existing entry; otherwise it appends the new city
at the end; consequently a list with no duplicates by id or (name,
country) stays duplicate-free. -/
theorem handleAddCity_unique (cities : List City) (newCity : City) :
    (∀ found, cities.find? (fun c => cityDup c newCity) = some found →
      handleAddCity cities newCity = (cities, found) ∧ CityDupRel found newCity)
  ∧ ((∀ c ∈ cities, ¬CityDupRel c newCity) →
      handleAddCity cities newCity = (cities ++ [newCity], newCity))
  ∧ (List.Pairwise (fun a b => ¬CityDupRel a b) cities →
      List.Pairwise (fun a b => ¬CityDupRel a b)
        (handleAddCity cities newCity).1) := by
  refine ⟨?_, ?_, ?_⟩
  · intro found hf
    refine ⟨by simp [handleAddCity, hf], ?_⟩
    have := List.find?_some hf
    exact (cityDup_iff found newCity).mp this
  · intro hnone
    have hfn : cities.find? (fun c => cityDup c newCity) = none := by
      rw [List.find?_eq_none]
      intro c hc
      simp only [Bool.not_eq_true]
      exact (Bool.not_eq_true _).mp
        (fun habs => hnone c hc ((cityDup_iff c newCity).mp habs))
    simp [handleAddCity, hfn]
  · intro hpw
    match hf : cities.find? (fun c => cityDup c newCity) with
    | some found => simpa [handleAddCity, hf] using hpw
    | none =>
      simp only [handleAddCity, hf]
      rw [List.pairwise_append]
      refine ⟨hpw, by simp, ?_⟩
      intro a ha b hb
      rw [List.mem_singleton] at hb
      intro habs
      rw [hb] at habs
      exact List.find?_eq_none.mp hf a ha ((cityDup_iff a newCity).mpr habs)

/-- Witness for C10: adding a genuinely new city appends it, and adding a
city that duplicates an existing one by (name, country) is a no-op that
selects the existing entry. -/
theorem handleAddCity_unique_witness :
    handleAddCity [⟨"kyoto", "Kyoto", "Japan", 35, 135, "Asia/Tokyo"⟩]
        ⟨"seoul", "Seoul", "South Korea", 37, 126, "Asia/Seoul"⟩ =
      ([⟨"kyoto", "Kyoto", "Japan", 35, 135, "Asia/Tokyo"⟩,
        ⟨"seoul", "Seoul", "South Korea", 37, 126, "Asia/Seoul"⟩],
        ⟨"seoul", "Seoul", "South Korea", 37, 126, "Asia/Seoul"⟩)
  ∧ handleAddCity [⟨"kyoto", "Kyoto", "Japan", 35, 135, "Asia/Tokyo"⟩]
        ⟨"kyoto2", "Kyoto", "Japan", 35, 135, "Asia/Tokyo"⟩ =
      ([⟨"kyoto", "Kyoto", "Japan", 35, 135, "Asia/Tokyo"⟩],
        ⟨"kyoto", "Kyoto", "Japan", 35, 135, "Asia/Tokyo"⟩) := by
  constructor
  · exact (handleAddCity_unique
      [⟨"kyoto", "Kyoto", "Japan", 35, 135, "Asia/Tokyo"⟩]
      ⟨"seoul", "Seoul", "South Korea", 37, 126, "Asia/Seoul"⟩).2.1
      (by decide)
  · exact ((handleAddCity_unique
      [⟨"kyoto", "Kyoto", "Japan", 35, 135, "Asia/Tokyo"⟩]
      ⟨"kyoto2", "Kyoto", "Japan", 35, 135, "Asia/Tokyo"⟩).1
      ⟨"kyoto", "Kyoto", "Japan", 35, 135, "Asia/Tokyo"⟩ (by decide)).1

/-! ## Stale-preferred weather cache (`loadScene`) -/

/-- The component state `loadScene` reads and writes: the per-city weather
cache, the displayed weather and the detail view state. -/
structure AppState where
  weatherCache : String → Option WeatherData
  weather : Option WeatherData
  viewState : ViewState

/-- JavaScript `toLowerCase` on the ASCII labels used by the app. -/
def jsToLower (s : String) : String := s.map Char.toLower

/-- The description set alongside a `complete` status. -/
def sceneDescription (cityName : String) (wd : WeatherData) : String :=
  "A view of " ++ cityName ++ " in " ++ jsToLower wd.conditionText ++
    " conditions."

/-- Embedding of `loadScene` from the main component.  `fetchResult` is
the outcome of the awaited `fetchWeather` call: `some` a snapshot on
success, `none` when it throws after exhausting retries.  The closure
consults the same `weatherCache` snapshot both before the fetch and in
the `catch` handler. -/
def loadScene (st : AppState) (city : City)
    (fetchResult : Option WeatherData) : AppState :=
  let st1 :=
    match st.weatherCache city.id with
    | some cached =>
      { st with
        weather := some cached
        viewState := ⟨ViewStatus.complete,
          some (sceneDescription city.name cached)⟩ }
    | none =>
      { st with
        viewState := ⟨ViewStatus.loading_weather, st.viewState.description⟩ }
  match fetchResult with
  | some wd =>
    { st1 with
      weather := some wd
      weatherCache := fun cid =>
        if cid = city.id then some wd else st1.weatherCache cid
      viewState := ⟨ViewStatus.complete,
        some (sceneDescription city.name wd)⟩ }
  | none =>
    match st.weatherCache city.id with
    | some _ => st1
    | none =>
      { st1 with
        viewState := ⟨ViewStatus.error, st1.viewState.description⟩
        weather := none }

/-- C1: for a city that already has a cached snapshot, a failed fetch
leaves the whole cache (in particular that city's entry) unchanged, keeps
serving the cached snapshot and ends with status `complete`, not `error`;
and for any fetch outcome, the resulting status is `error` exactly when
the fetch failed and no cached value existed for that city. -/
theorem loadScene_stale_preferred (st : AppState) (city : City) :
    (∀ wd, st.weatherCache city.id = some wd →
      (loadScene st city none).weatherCache = st.weatherCache
      ∧ (loadScene st city none).weatherCache city.id = some wd
      ∧ (loadScene st city none).weather = some wd
      ∧ (loadScene st city none).viewState.status = ViewStatus.complete)
  ∧ (∀ fetchResult,
      (loadScene st city fetchResult).viewState.status = ViewStatus.error ↔
        (st.weatherCache city.id = none ∧ fetchResult = none)) := by
  constructor
  · intro wd hwd
    simp [loadScene, hwd]
  · intro fetchResult
    cases hc : st.weatherCache city.id <;> cases fetchResult <;>
      simp [loadScene, hc]

/-- Witness for C1 at a concrete state whose cache holds a snapshot for
`kyoto`: the failed fetch neither clears the entry nor surfaces an error. -/
theorem loadScene_stale_preferred_witness :
    (loadScene
        ⟨fun cid => if cid = "kyoto" then some ⟨5, 71, "Slight snow fall", false, "11:30 PM"⟩ else none,
          none, ⟨ViewStatus.idle, none⟩⟩
        ⟨"kyoto", "Kyoto", "Japan", 35, 135, "Asia/Tokyo"⟩ none).weatherCache "kyoto" =
      some ⟨5, 71, "Slight snow fall", false, "11:30 PM"⟩
  ∧ (loadScene
        ⟨fun cid => if cid = "kyoto" then some ⟨5, 71, "Slight snow fall", false, "11:30 PM"⟩ else none,
          none, ⟨ViewStatus.idle, none⟩⟩
        ⟨"kyoto", "Kyoto", "Japan", 35, 135, "Asia/Tokyo"⟩ none).viewState.status =
      ViewStatus.complete := by
  have h := (loadScene_stale_preferred
    ⟨fun cid => if cid = "kyoto" then some ⟨5, 71, "Slight snow fall", false, "11:30 PM"⟩ else none,
      none, ⟨ViewStatus.idle, none⟩⟩
    ⟨"kyoto", "Kyoto", "Japan", 35, 135, "Asia/Tokyo"⟩).1
    ⟨5, 71, "Slight snow fall", false, "11:30 PM"⟩ (by simp)
  exact ⟨h.2.1, h.2.2.2⟩

/-! ## Manifest cache (`fetchFolderManifest`)

`fetchFolderManifest` keeps two module-level maps: `manifestCache`
(memoized results) and `pendingManifests` (the in-flight promise per
category).  Since the runtime is single-threaded and cooperative, the
function's synchronous prefix (cache check, pending check, request
creation) and the promise resolution each run atomically; they are
modelled as the two events of a state machine.  Callers are identified by
numbers; `resolved` records which caller received which manifest. -/

/-- Shared state of the manifest cache. -/
structure MState where
  cache : String → Option (List String)
  pending : String → Option (List Nat)
  requests : Nat
  resolved : List (Nat × List String)

/-- Events: a caller invokes `fetchFolderManifest cat`, or the single
underlying fetch for `cat` settles (`some data` on success, `none` on a
network error or non-success response). -/
inductive MEvent where
  | call (caller : Nat) (cat : String)
  | complete (cat : String) (result : Option (List String))

/-- One atomic step.  A call returns the memoized value if present,
otherwise joins the pending promise if one exists, otherwise issues the
network request.  A completion memoizes `data` (the empty list on
failure, per the `catch` handler), resolves every joined caller with that
same value and deletes the pending entry (the `finally` handler). -/
def mStep (st : MState) : MEvent → MState
  | MEvent.call caller cat =>
    match st.cache cat with
    | some m => { st with resolved := st.resolved ++ [(caller, m)] }
    | none =>
      match st.pending cat with
      | some ws =>
        { st with pending := fun c =>
            if c = cat then some (ws ++ [caller]) else st.pending c }
      | none =>
        { st with
          pending := fun c => if c = cat then some [caller] else st.pending c
          requests := st.requests + 1 }
  | MEvent.complete cat result =>
    { st with
      cache := fun c => if c = cat then some (result.getD []) else st.cache c
      pending := fun c => if c = cat then none else st.pending c
      resolved := st.resolved ++
        ((st.pending cat).getD []).map (fun w => (w, result.getD [])) }

/-- Run a sequence of events. -/
def mRun (st : MState) (evs : List MEvent) : MState := evs.foldl mStep st

/-- A trace is valid when every completion settles an actually
outstanding fetch: in the real module a promise for a category exists
exactly while `pendingManifests[category]` is set. -/
inductive ValidTrace : MState → List MEvent → Prop where
  | nil (st : MState) : ValidTrace st []
  | call (st : MState) (caller : Nat) (cat : String) (evs : List MEvent) :
      ValidTrace (mStep st (MEvent.call caller cat)) evs →
      ValidTrace st (MEvent.call caller cat :: evs)
  | complete (st : MState) (cat : String) (result : Option (List String))
      (evs : List MEvent) :
      st.pending cat ≠ none →
      ValidTrace (mStep st (MEvent.complete cat result)) evs →
      ValidTrace st (MEvent.complete cat result :: evs)

theorem mStep_call_cache (st : MState) (caller : Nat) (c : String) :
    (mStep st (MEvent.call caller c)).cache = st.cache := by
  cases hcc : st.cache c
  · cases hpp : st.pending c <;> simp [mStep, hcc, hpp]
  · simp [mStep, hcc]

theorem mStep_call_pending_of_other {c cat : String} (h : c ≠ cat)
    (st : MState) (caller : Nat) :
    (mStep st (MEvent.call caller c)).pending cat = st.pending cat := by
  cases hcc : st.cache c
  · cases hpp : st.pending c <;>
      simp [mStep, hcc, hpp, if_neg (Ne.symm h)]
  · simp [mStep, hcc]

theorem mStep_call_pending_of_hit {st : MState} {c : String} {m : List String}
    (hcc : st.cache c = some m) (caller : Nat) :
    (mStep st (MEvent.call caller c)).pending = st.pending := by
  simp [mStep, hcc]

theorem mStep_complete_cache_of_other {c cat : String} (h : c ≠ cat)
    (st : MState) (result : Option (List String)) :
    (mStep st (MEvent.complete c result)).cache cat = st.cache cat := by
  simp [mStep, if_neg (Ne.symm h)]

theorem mStep_complete_pending_of_other {c cat : String} (h : c ≠ cat)
    (st : MState) (result : Option (List String)) :
    (mStep st (MEvent.complete c result)).pending cat = st.pending cat := by
  simp [mStep, if_neg (Ne.symm h)]

/-- Once a category is memoized with `[]` and has no outstanding fetch,
any valid continuation preserves both facts. -/
theorem validTrace_preserves_negative {st : MState} {evs : List MEvent}
    (hv : ValidTrace st evs) (cat : String) :
    st.cache cat = some [] → st.pending cat = none →
    (mRun st evs).cache cat = some [] ∧ (mRun st evs).pending cat = none := by
  induction hv with
  | nil st => intro hc hp; exact ⟨hc, hp⟩
  | call st caller c evs hv ih =>
    intro hc hp
    have hrun : mRun st (MEvent.call caller c :: evs) =
        mRun (mStep st (MEvent.call caller c)) evs := rfl
    rw [hrun]
    apply ih
    · rw [mStep_call_cache]; exact hc
    · by_cases h : c = cat
      · subst h
        rw [mStep_call_pending_of_hit hc]
        exact hp
      · rw [mStep_call_pending_of_other h]
        exact hp
  | complete st c result evs hpend hv ih =>
    intro hc hp
    have hrun : mRun st (MEvent.complete c result :: evs) =
        mRun (mStep st (MEvent.complete c result)) evs := rfl
    rw [hrun]
    have hne : c ≠ cat := by
      intro he
      rw [he] at hpend
      exact hpend hp
    apply ih
    · rw [mStep_complete_cache_of_other hne]; exact hc
    · rw [mStep_complete_pending_of_other hne]; exact hp

/-- An uncached call followed by the failure of its own fetch: the shape
of the scenario C4 speaks about. -/
def failedManifestFetch (st : MState) (caller : Nat) (cat : String) : MState :=
  mStep (mStep st (MEvent.call caller cat)) (MEvent.complete cat none)

/-- C4: when the manifest fetch for an uncached category fails, the
calling client is resolved with the empty sequence, the empty result is
memoized, and after any valid continuation of the execution the category
is still memoized as empty and a new call for it is resolved with the
empty sequence while changing nothing but the resolution log — in
particular issuing no network request. -/
theorem fetchFolderManifest_negative_caching (st : MState) (caller : Nat)
    (cat : String) (hc : st.cache cat = none) (hp : st.pending cat = none) :
    (caller, ([] : List String)) ∈ (failedManifestFetch st caller cat).resolved
  ∧ (failedManifestFetch st caller cat).cache cat = some []
  ∧ (failedManifestFetch st caller cat).pending cat = none
  ∧ ∀ evs, ValidTrace (failedManifestFetch st caller cat) evs →
      (mRun (failedManifestFetch st caller cat) evs).cache cat = some []
      ∧ ∀ w, mStep (mRun (failedManifestFetch st caller cat) evs)
            (MEvent.call w cat) =
          { mRun (failedManifestFetch st caller cat) evs with
            resolved := (mRun (failedManifestFetch st caller cat) evs).resolved
              ++ [(w, [])] } := by
  have hstep : failedManifestFetch st caller cat =
      { st with
        cache := fun c => if c = cat then some [] else st.cache c
        pending := fun c => if c = cat then none else
          (if c = cat then some [caller] else st.pending c)
        requests := st.requests + 1
        resolved := st.resolved ++ [(caller, [])] } := by
    simp [failedManifestFetch, mStep, hc, hp]
  refine ⟨?_, ?_, ?_, ?_⟩
  · rw [hstep]; simp
  · rw [hstep]; simp
  · rw [hstep]; simp
  · intro evs hv
    have hpres := validTrace_preserves_negative hv cat
      (by rw [hstep]; simp) (by rw [hstep]; simp)
    refine ⟨hpres.1, ?_⟩
    intro w
    simp [mStep, hpres.1]

/-- Witness for C4 from the empty initial state with the empty valid
continuation. -/
theorem fetchFolderManifest_negative_caching_witness :
    (0, ([] : List String)) ∈
      (failedManifestFetch ⟨fun _ => none, fun _ => none, 0, []⟩ 0 "rain-day").resolved
  ∧ (failedManifestFetch ⟨fun _ => none, fun _ => none, 0, []⟩ 0 "rain-day").cache
      "rain-day" = some [] := by
  have h := fetchFolderManifest_negative_caching
    ⟨fun _ => none, fun _ => none, 0, []⟩ 0 "rain-day" rfl rfl
  exact ⟨h.1, h.2.1⟩

/-- Joining calls while a fetch is outstanding only append to the pending
waiter list: no cache change, no new request, no resolution yet. -/
theorem mRun_calls_join (cat : String) : ∀ (rest : List Nat) (st : MState)
    (ws : List Nat), st.cache cat = none → st.pending cat = some ws →
    (mRun st (rest.map (fun w => MEvent.call w cat))).cache = st.cache
  ∧ (mRun st (rest.map (fun w => MEvent.call w cat))).pending cat =
      some (ws ++ rest)
  ∧ (mRun st (rest.map (fun w => MEvent.call w cat))).requests = st.requests
  ∧ (mRun st (rest.map (fun w => MEvent.call w cat))).resolved = st.resolved := by
  intro rest
  induction rest with
  | nil => intro st ws hc hp; exact ⟨rfl, by simpa using hp, rfl, rfl⟩
  | cons w rest ih =>
    intro st ws hc hp
    have hstep : mStep st (MEvent.call w cat) =
        { st with pending := fun c =>
            if c = cat then some (ws ++ [w]) else st.pending c } := by
      simp [mStep, hc, hp]
    have hrun : mRun st ((w :: rest).map (fun w => MEvent.call w cat)) =
        mRun (mStep st (MEvent.call w cat))
          (rest.map (fun w => MEvent.call w cat)) := rfl
    rw [hrun, hstep]
    have := ih { st with pending := fun c =>
        if c = cat then some (ws ++ [w]) else st.pending c }
      (ws ++ [w]) hc (by simp)
    refine ⟨this.1, ?_, this.2.2.1, this.2.2.2⟩
    rw [this.2.1]
    simp

/-- C5: N concurrent calls for the same uncached category while the fetch
is outstanding issue exactly one network request between them, and when
the fetch settles they all resolve with the same value. -/
theorem fetchFolderManifest_single_flight (st : MState) (cat : String)
    (callers : List Nat) (result : Option (List String)) (c0 : Nat)
    (rest : List Nat) (hcallers : callers = c0 :: rest)
    (hc : st.cache cat = none) (hp : st.pending cat = none) :
    (mRun st (callers.map (fun w => MEvent.call w cat) ++
        [MEvent.complete cat result])).requests = st.requests + 1
  ∧ ∀ w ∈ callers,
      (w, result.getD []) ∈
        (mRun st (callers.map (fun w => MEvent.call w cat) ++
          [MEvent.complete cat result])).resolved := by
  subst hcallers
  have hstep0 : mStep st (MEvent.call c0 cat) =
      { st with
        pending := fun c => if c = cat then some [c0] else st.pending c
        requests := st.requests + 1 } := by
    simp [mStep, hc, hp]
  have hrun : mRun st (((c0 :: rest).map (fun w => MEvent.call w cat)) ++
      [MEvent.complete cat result]) =
      mStep (mRun (mStep st (MEvent.call c0 cat))
        (rest.map (fun w => MEvent.call w cat))) (MEvent.complete cat result) := by
    simp [mRun, List.foldl_append]
  rw [hrun, hstep0]
  have hjoin := mRun_calls_join cat rest
    { st with
      pending := fun c => if c = cat then some [c0] else st.pending c
      requests := st.requests + 1 } [c0] hc (by simp)
  constructor
  · simp only [mStep]
    rw [hjoin.2.2.1]
  · intro w hw
    simp only [mStep]
    rw [hjoin.2.1, hjoin.2.2.2]
    simp only [List.mem_append, List.mem_map]
    right
    exact ⟨w, by simpa using hw, rfl⟩

/-- Witness for C5: two concurrent callers for `snow-night` from the
empty state share one request and both receive the fetched manifest. -/
theorem fetchFolderManifest_single_flight_witness :
    (mRun ⟨fun _ => none, fun _ => none, 0, []⟩
        ([0, 1].map (fun w => MEvent.call w "snow-night") ++
          [MEvent.complete "snow-night" (some ["x.png"])])).requests = 0 + 1
  ∧ ∀ w ∈ ([0, 1] : List Nat),
      (w, (some ["x.png"]).getD []) ∈
        (mRun ⟨fun _ => none, fun _ => none, 0, []⟩
          ([0, 1].map (fun w => MEvent.call w "snow-night") ++
            [MEvent.complete "snow-night" (some ["x.png"])])).resolved :=
  fetchFolderManifest_single_flight ⟨fun _ => none, fun _ => none, 0, []⟩
    "snow-night" [0, 1] (some ["x.png"]) 0 [1] rfl rfl rfl

end WTW
